import Mathlib

/-!
# Verification of the `arc-apps` export pipeline

Shallow embedding of `src/internal/cmd/root.go` (package `cmd`).  The
program shells out to external commands (`mdfind`, `brew`), reads
directories, and writes a sectioned text report; the embedding models the
external world as an `Env` record holding the outcome of every external
interaction, and `runExport` as a pure function from `Env` and
`exportOptions` to the returned `exportResult`, the returned error, the
sequence of lines written to the report, and the list of files created.

Modelling conventions:
* Go strings are Lean `String`s; Go's byte-level operations are modelled
  at the `List Char` level (UTF-8 byte order coincides with code-point
  order, and all delimiters involved — `'\n'`, `'/'`, ASCII whitespace —
  are single-byte).  The `Substring`-based Lean library functions do not
  reduce in the kernel, so the Go `strings` helpers are re-implemented
  structurally below.
* `sort.Strings` produces the unique sorted permutation of a list of
  strings (equal elements are identical), so it is modelled by an
  insertion sort over the byte-wise order `strLe`.
* Writes to the buffered report writer cannot fail in the model (the
  buffer only surfaces errors from the underlying file, which the claims
  under scrutiny do not exercise); the report is modelled as the list of
  lines written, where each `Fprintln` contributes one line and a
  subprocess stream contributes its newline-separated lines.
* `time.Time` values are modelled as integer nanosecond timestamps and
  the `float64` duration as an exact rational, machine integers as `Int`.
-/

/-! ## Go `strings` helpers, re-implemented structurally -/
/-- Go `strings.TrimSpace` on the character list: drop leading and
trailing whitespace. -/
def trimChars (l : List Char) : List Char :=
  ((l.dropWhile Char.isWhitespace).reverse.dropWhile Char.isWhitespace).reverse

/-- Go `strings.TrimSpace`. -/
def trimSpace (s : String) : String := ⟨trimChars s.data⟩

/-- Go `strings.Split(s, "\n")` on the character list; splitting the
empty string yields one empty field, as in Go. -/
def splitNl : List Char → List (List Char)
  | [] => [[]]
  | c :: cs =>
    match splitNl cs with
    | [] => [[]]
    | s :: ss => if c = '\n' then [] :: s :: ss else (c :: s) :: ss

/-- Go `strings.Split(s, "\n")`. -/
def splitLines (s : String) : List String := (splitNl s.data).map (⟨·⟩)

/-- The lines a subprocess stream contributes to the report when its raw
output is written through `io.MultiWriter`: its newline-separated lines
(a trailing newline does not open an extra empty line; empty output
contributes nothing). -/
def streamLines (s : String) : List String :=
  if s.data = [] then []
  else splitLines ⟨if s.data.getLast? = some '\n' then s.data.dropLast else s.data⟩

/-- The normalisation performed by `commandLines` in `root.go`: trim the
whole output, split on newlines, trim each line, drop blank lines. -/
def normalizeOutput (s : String) : List String :=
  ((splitLines (trimSpace s)).map trimSpace).filter (fun l => l ≠ "")

/-- Byte-wise (code-point-wise) lexicographic strict order on character
lists: the order underlying Go's `string <`. -/
def goLtChars : List Char → List Char → Bool
  | [], [] => false
  | [], _ :: _ => true
  | _ :: _, [] => false
  | a :: as, b :: bs =>
    if a < b then true else if b < a then false else goLtChars as bs

/-- Go's `a <= b` on strings: `!(b < a)`. -/
def strLe (a b : String) : Bool := !(goLtChars b.data a.data)

/-- `strLe` as a relation, for use with `List.Sorted`. -/
def strLeRel (a b : String) : Prop := strLe a b = true

instance : DecidableRel strLeRel := fun a b =>
  inferInstanceAs (Decidable (strLe a b = true))

/-- Model of Go `sort.Strings`: the sorted permutation of the input in
ascending byte-wise order. -/
def sortStrings (l : List String) : List String := List.insertionSort strLeRel l

/-! ## Caskroom walk (`caskroomDirectories` helpers) -/
/-- Go `strings.TrimPrefix(s, p)`. -/
def trimPrefix (s p : String) : String :=
  if p.data.isPrefixOf s.data then ⟨s.data.drop p.data.length⟩ else s

/-- Go `strings.Count(s, "/")` — `os.PathSeparator` on darwin is `'/'`. -/
def sepCount (s : String) : Nat := s.data.count '/'

/-- A filesystem entry as seen by `filepath.WalkDir`: a file or a
directory with its (lexically ordered) children. -/
inductive FsEntry where
  | file (name : String)
  | dir (name : String) (children : List FsEntry)

/-- Name of an entry. -/
def FsEntry.name : FsEntry → String
  | .file n => n
  | .dir n _ => n

mutual

/-- The `filepath.WalkDir` traversal performed by `caskroomDirectories`:
`path` is the full path of the entry being visited, `root` the Caskroom
root.  Files are skipped; a directory whose depth (separator count of
the path with the root prefix trimmed) exceeds 2 answers
`filepath.SkipDir`, so it is neither collected nor descended into;
every other directory is collected and its children are visited in
order. -/
def walkFrom (root : String) (path : String) : FsEntry → List String
  | .file _ => []
  | .dir _ children =>
    if sepCount (trimPrefix path root) > 2 then []
    else path :: walkList root path children

def walkList (root : String) (path : String) : List FsEntry → List String
  | [] => []
  | c :: cs => walkFrom root (path ++ "/" ++ c.name) c ++ walkList root path cs

end

/-! ## Data model (`root.go` types and the modelled environment) -/
/-- `exportStats` from `root.go`; Go `int` fields are modelled as `Int`. -/
structure exportStats where
  appBundleCount : Int
  applicationsDirCount : Int
  userApplicationsCount : Int
  brewCaskCount : Int
  brewFormulaCount : Int
deriving DecidableEq, Repr

/-- The zero value of `exportStats` (`exportStats{}` in Go). -/
def exportStats.zero : exportStats := ⟨0, 0, 0, 0, 0⟩

/-- `exportResult` from `root.go`.  Timestamps are integer nanoseconds,
the duration an exact rational number of seconds. -/
structure exportResult where
  reportPath : String
  reportSizeBytes : Int
  brewJSONPath : String
  brewJSONSizeBytes : Int
  compact : Bool
  stats : exportStats
  durationSeconds : Rat
  startedAt : Int
  completedAt : Int
  warnings : List String
deriving DecidableEq, Repr

/-- The zero value of `exportResult` (`var result exportResult`). -/
def exportResult.zero : exportResult :=
  ⟨"", 0, "", 0, false, exportStats.zero, 0, 0, 0, []⟩

/-- `exportOptions` from `root.go` (paths already expanded; `filepath.Abs`
is modelled as the identity on the already-absolute cleaned paths). -/
structure exportOptions where
  reportPath : String
  jsonPath : String
  compact : Bool

/-- `arcer.CLIError` as constructed by `root.go`. -/
structure CLIError where
  msg : String
  hint : String
  suggestions : List String
deriving DecidableEq, Repr

/-- An error returned by `runExport`: either a `CLIError` built by the
program or an operating-system error passed through as-is. -/
inductive ExportErr where
  | cli (e : CLIError)
  | io (msg : String)
deriving DecidableEq, Repr

/-- Outcome of one external command invocation: whether it exited
successfully, its captured output, and the rendering (`%v`) of its
`error` when it failed. -/
structure CmdRes where
  ok : Bool
  out : String
  errMsg : String

/-- Outcome of one `os.ReadDir`: success flag, entry names (unsorted, as
returned by the OS), and the error rendering on failure. -/
structure DirRes where
  ok : Bool
  entries : List String
  errMsg : String

/-- Outcome of the `os.Stat` on the Caskroom directory. -/
inductive StatRes where
  | found
  | notExist
  | statErr (msg : String)
deriving DecidableEq, Repr

/-- The external world of one `runExport` run: the result of every
external-command invocation, directory read, and filesystem operation
the run may perform. -/
structure Env where
  /-- `exec.LookPath("mdfind")` succeeds. -/
  mdfindOnPath : Bool
  /-- `exec.LookPath("brew")` succeeds. -/
  brewOnPath : Bool
  /-- `os.MkdirAll(filepath.Dir(absReport), 0o755)` succeeds. -/
  mkdirReportOk : Bool
  /-- `os.MkdirAll(filepath.Dir(absJSON), 0o755)` succeeds. -/
  mkdirJSONOk : Bool
  /-- `os.Create(absReport)` succeeds. -/
  createReportOk : Bool
  /-- `mdfind "kMDItemContentType == 'com.apple.application-bundle'"`. -/
  mdfindApps : CmdRes
  /-- `os.ReadDir("/Applications")`. -/
  applicationsDir : DirRes
  /-- `os.ReadDir(homeDir + "/Applications")`. -/
  userApplicationsDir : DirRes
  /-- `brew list --cask --versions`. -/
  brewListCask : CmdRes
  /-- `brew --prefix`. -/
  brewPrefix : CmdRes
  /-- `os.Stat` of the Caskroom directory. -/
  caskroomStat : StatRes
  /-- Children of the Caskroom directory, as traversed by
  `filepath.WalkDir`. -/
  caskroomChildren : List FsEntry
  /-- `brew list --formula --versions`. -/
  brewListFormula : CmdRes
  /-- `brew config` (output streamed into the report). -/
  brewConfig : CmdRes
  /-- `brew doctor` (output streamed into the report). -/
  brewDoctor : CmdRes
  /-- `os.Create(absJSON)` inside `writeBrewJSON` succeeds. -/
  createJSONOk : Bool
  /-- `brew info --installed --json=v2`; `out` models the captured
  standard-error stream (standard output goes to the JSON file). -/
  brewInfoJSON : CmdRes
  /-- `os.Stat(path).Size()` as read back by `fileSize` (0 on error). -/
  statSize : String → Int
  /-- `time.Now()` at the start of the run, in nanoseconds. -/
  startNs : Int
  /-- `time.Now()` at the end of the run, in nanoseconds. -/
  endNs : Int

/-! ## Helper functions of `root.go` -/
/-- `wrapCommandErr` for a non-nil error: wraps the command name and the
error rendering, with the generic fallback hint when none is supplied. -/
def wrapCommandErr (cmdName : String) (errMsg : String) (hint : String) :
    CLIError :=
  { msg := cmdName ++ " failed: " ++ errMsg
    hint := if hint = "" then
        "Re-run with verbose logging or manually execute `" ++ cmdName ++
          "` for details."
      else hint
    suggestions := [] }

/-- The `CLIError` built by `ensureCommand` when an executable is not on
the search path. -/
def missingCmdError (name hint : String) : CLIError :=
  { msg := name ++ " is required but not found in PATH"
    hint := hint
    suggestions := ["which " ++ name, "echo $PATH"] }

/-- `commandLines`: on success the normalised output lines, on failure
the `fmt.Errorf("%s: %w: %s", ...)` rendering. -/
def commandLines (name : String) (res : CmdRes) : Except String (List String) :=
  if res.ok then Except.ok (normalizeOutput res.out)
  else Except.error (name ++ ": " ++ res.errMsg ++ ": " ++
    trimSpace res.out)

/-- `listDirSorted`: entry names sorted, or the `os.ReadDir` error. -/
def listDirSorted (res : DirRes) : Except String (List String) :=
  if res.ok then Except.ok (sortStrings res.entries) else Except.error res.errMsg

/-- Result of `appendCommandOutput`: the lines streamed into the report
(the `io.MultiWriter` writes output to the report even on failure), the
warning string (empty if none), and the fatal error (if any). -/
structure AppendRes where
  written : List String
  warn : String
  fatal : Option CLIError

/-- `appendCommandOutput`: a failing command is downgraded to a warning
when `allowWarn` holds and otherwise wrapped as a fatal error; the
captured output is appended to the warning or used as the error hint. -/
def appendCommandOutput (allowWarn : Bool) (cmdStr : String) (res : CmdRes) :
    AppendRes :=
  if res.ok then ⟨streamLines res.out, "", none⟩
  else
    let msg := trimSpace res.out
    let warn := cmdStr ++ " failed: " ++ res.errMsg
    let warn := if msg ≠ "" then warn ++ ": " ++ msg else warn
    if allowWarn then ⟨streamLines res.out, warn, none⟩
    else ⟨streamLines res.out, "", some (wrapCommandErr cmdStr res.errMsg msg)⟩

/-- `filepath.Join(a, b)` for a nonempty cleaned absolute `a` and a plain
name `b`. -/
def joinPath (a b : String) : String := a ++ "/" ++ b

/-- `writeSectionHeader`: the four lines written for a section header. -/
def sectionHeader (title : String) : List String :=
  ["", "===============================", title, "==============================="]

/-- `caskroomDirectories`: resolve the Homebrew prefix, stat the
Caskroom, and walk it.  When `brew --prefix` succeeds with no output
lines, Go's `wrapCommandErr` receives a nil error and returns nil, so
the function returns an empty list and no error. -/
def caskroomDirectories (env : Env) : Except ExportErr (List String) :=
  match commandLines "brew" env.brewPrefix with
  | Except.error e => Except.error (ExportErr.cli (wrapCommandErr "brew --prefix" e ""))
  | Except.ok [] => Except.ok []
  | Except.ok (p :: _) =>
    let caskroom := joinPath p "Caskroom"
    match env.caskroomStat with
    | StatRes.notExist => Except.ok []
    | StatRes.statErr m => Except.error (ExportErr.io m)
    | StatRes.found =>
      Except.ok (sortStrings
        (walkFrom caskroom caskroom (FsEntry.dir "Caskroom" env.caskroomChildren)))

/-! ## `runExport` -/
/-- Everything observable about one `runExport` call: the returned
`exportResult`, the returned error, the lines written to the report
(present on disk even on an error return, because the buffered writer is
flushed by `defer`), and the files created, in creation order. -/
structure RunOutcome where
  result : exportResult
  err : Option ExportErr
  report : List String
  created : List String

/-- Shallow embedding of `runExport` from `root.go`, transcribed
match-for-match from the source: preflight checks, report-file creation,
the five inventory categories (each written under its section), the
diagnostics and metadata block (skipped in compact mode), the closing
banner, and the final assembly of the result record. -/
def runExport (env : Env) (opts : exportOptions) : RunOutcome :=
  if !env.mdfindOnPath then
    ⟨exportResult.zero,
      some (ExportErr.cli (missingCmdError "mdfind"
        "Spotlight CLI missing. Ensure you're on macOS with Spotlight enabled.")),
      [], []⟩
  else if !env.brewOnPath then
    ⟨exportResult.zero,
      some (ExportErr.cli (missingCmdError "brew"
        "Install Homebrew from https://brew.sh/ to capture casks and formulae.")),
      [], []⟩
  else
    let absReport := opts.reportPath
    let absJSON := opts.jsonPath
    if !env.mkdirReportOk then
      ⟨exportResult.zero, some (ExportErr.io "MkdirAll report dir"), [], []⟩
    else if !env.mkdirJSONOk then
      ⟨exportResult.zero, some (ExportErr.io "MkdirAll json dir"), [], []⟩
    else if !env.createReportOk then
      ⟨exportResult.zero, some (ExportErr.io "Create report file"), [], []⟩
    else
      let created := [absReport]
      let res1 : exportResult :=
        { exportResult.zero with
            reportPath := absReport
            brewJSONPath := if !opts.compact then absJSON else ""
            startedAt := env.startNs }
      let rep0 := sectionHeader "MAC SYSTEM + USER INSTALLED APPLICATIONS (.app bundles)"
      match commandLines "mdfind" env.mdfindApps with
      | Except.error e =>
        ⟨res1, some (ExportErr.cli (wrapCommandErr "mdfind" e "")), rep0, created⟩
      | Except.ok rawBundles =>
        let appBundles := sortStrings rawBundles
        let s1 : Int := appBundles.length
        let rep1 := rep0 ++ appBundles ++ ["", "-- /Applications ---"]
        match listDirSorted env.applicationsDir with
        | Except.error e =>
          ⟨res1, some (ExportErr.cli (wrapCommandErr "ls /Applications" e "")),
            rep1, created⟩
        | Except.ok systemApps =>
          let s2 : Int := systemApps.length
          let rep2 := rep1 ++ systemApps ++ ["", "-- ~/Applications ---"]
          let userStep :=
            match listDirSorted env.userApplicationsDir with
            | Except.ok userApps => ((userApps.length : Int), userApps)
            | Except.error _ => ((0 : Int), [])
          let s3 : Int := userStep.1
          let rep3 := rep2 ++ userStep.2 ++ sectionHeader "HOMEBREW CASK APPLICATIONS (GUI)"
          match commandLines "brew" env.brewListCask with
          | Except.error e =>
            ⟨res1, some (ExportErr.cli (wrapCommandErr "brew list --cask --versions" e
              "Confirm Homebrew is installed and casks are set up.")), rep3, created⟩
          | Except.ok rawCasks =>
            let casks := sortStrings rawCasks
            let s4 : Int := casks.length
            let rep4 := rep3 ++ casks
            let caskroomStep : Except ExportErr (List String) :=
              if !opts.compact then
                match caskroomDirectories env with
                | Except.error e => Except.error e
                | Except.ok dirs => Except.ok (["", "-- Installed paths --"] ++ dirs)
              else Except.ok []
            match caskroomStep with
            | Except.error e => ⟨res1, some e, rep4 ++ ["", "-- Installed paths --"], created⟩
            | Except.ok caskroomPart =>
              let rep5 := rep4 ++ caskroomPart ++ sectionHeader "HOMEBREW FORMULAE (CLI tools)"
              match commandLines "brew" env.brewListFormula with
              | Except.error e =>
                ⟨res1, some (ExportErr.cli (wrapCommandErr "brew list --formula --versions" e
                  "Confirm Homebrew is installed and formulae are set up.")), rep5, created⟩
              | Except.ok rawFormulae =>
                let formulae := sortStrings rawFormulae
                let s5 : Int := formulae.length
                let rep6 := rep5 ++ formulae
                let stats : exportStats := ⟨s1, s2, s3, s4, s5⟩
                if !opts.compact then
                  let rep7 := rep6 ++ sectionHeader "BREW ENV & METADATA"
                  let ac := appendCommandOutput false "brew config" env.brewConfig
                  let rep8 := rep7 ++ ac.written
                  match ac.fatal with
                  | some e => ⟨res1, some (ExportErr.cli e), rep8, created⟩
                  | none =>
                    let res2 := if ac.warn ≠ "" then
                        { res1 with warnings := res1.warnings ++ [ac.warn] }
                      else res1
                    let ad := appendCommandOutput true "brew doctor" env.brewDoctor
                    let rep9 := rep8 ++ ad.written
                    match ad.fatal with
                    | some e => ⟨res2, some (ExportErr.cli e), rep9, created⟩
                    | none =>
                      let res3 := if ad.warn ≠ "" then
                          { res2 with warnings := res2.warnings ++ [ad.warn] }
                        else res2
                      let rep10 := rep9 ++ sectionHeader "FULL BREW PACKAGE METADATA (JSON)"
                      if !env.createJSONOk then
                        ⟨res3, some (ExportErr.io "Create brew json file"), rep10, created⟩
                      else
                        let created2 := created ++ [absJSON]
                        if !env.brewInfoJSON.ok then
                          ⟨res3, some (ExportErr.cli (wrapCommandErr
                            "brew info --installed --json=v2" env.brewInfoJSON.errMsg
                            (trimSpace env.brewInfoJSON.out))), rep10, created2⟩
                        else
                          let rep11 := rep10 ++ ["Saved JSON -> " ++ absJSON]
                          let repFinal := rep11 ++
                            ["", "===============================", "Report complete!",
                              "Text report: " ++ absReport,
                              "JSON metadata: " ++ absJSON,
                              "==============================="]
                          ⟨{ res3 with
                              reportSizeBytes := env.statSize absReport
                              brewJSONSizeBytes := env.statSize absJSON
                              stats := stats
                              completedAt := env.endNs
                              durationSeconds :=
                                ((env.endNs - env.startNs : Int) : Rat) / 1000000000
                              compact := opts.compact },
                            none, repFinal, created2⟩
                else
                  let repFinal := rep6 ++
                    ["", "===============================", "Report complete!",
                      "Text report: " ++ absReport,
                      "JSON metadata: skipped (compact mode)",
                      "==============================="]
                  ⟨{ res1 with
                      reportSizeBytes := env.statSize absReport
                      stats := stats
                      completedAt := env.endNs
                      durationSeconds :=
                        ((env.endNs - env.startNs : Int) : Rat) / 1000000000
                      compact := opts.compact },
                    none, repFinal, created⟩

/-! ## Success-path characterisation -/
/-- The app-bundle section lines: normalised `mdfind` output, sorted. -/
def appBundlesOf (env : Env) : List String :=
  sortStrings (normalizeOutput env.mdfindApps.out)

/-- The `/Applications` listing lines: raw entry names, sorted. -/
def systemAppsOf (env : Env) : List String :=
  sortStrings env.applicationsDir.entries

/-- The `~/Applications` listing lines: raw entry names, sorted; a
failing read contributes nothing. -/
def userAppsOf (env : Env) : List String :=
  if env.userApplicationsDir.ok then sortStrings env.userApplicationsDir.entries
  else []

/-- The cask section lines: normalised `brew list --cask --versions`
output, sorted. -/
def casksOf (env : Env) : List String :=
  sortStrings (normalizeOutput env.brewListCask.out)

/-- The formula section lines: normalised `brew list --formula
--versions` output, sorted. -/
def formulaeOf (env : Env) : List String :=
  sortStrings (normalizeOutput env.brewListFormula.out)

/-- The Caskroom directory lines written in the non-compact run (empty
when `caskroomDirectories` failed, in which case the run aborts). -/
def caskroomDirsOf (env : Env) : List String :=
  match caskroomDirectories env with
  | Except.ok ds => ds
  | Except.error _ => []

/-- The warning string recorded for a failing `brew doctor`. -/
def doctorWarnOf (env : Env) : String :=
  (appendCommandOutput true "brew doctor" env.brewDoctor).warn

/-- All the external interactions that a run must succeed at for
`runExport` to return without error (`brew doctor` and the
`~/Applications` read are allowed to fail). -/
def envOk (env : Env) (opts : exportOptions) : Bool :=
  env.mdfindOnPath && env.brewOnPath && env.mkdirReportOk && env.mkdirJSONOk &&
  env.createReportOk && env.mdfindApps.ok && env.applicationsDir.ok &&
  env.brewListCask.ok && env.brewListFormula.ok &&
  (opts.compact ||
    ((caskroomDirectories env).isOk && env.brewConfig.ok &&
      env.createJSONOk && env.brewInfoJSON.ok))

/-- The full report of a successful run, as the concatenation of its
sections. -/
def goodReport (env : Env) (opts : exportOptions) : List String :=
  sectionHeader "MAC SYSTEM + USER INSTALLED APPLICATIONS (.app bundles)" ++
  appBundlesOf env ++
  ["", "-- /Applications ---"] ++ systemAppsOf env ++
  ["", "-- ~/Applications ---"] ++ userAppsOf env ++
  sectionHeader "HOMEBREW CASK APPLICATIONS (GUI)" ++ casksOf env ++
  (if opts.compact then [] else ["", "-- Installed paths --"] ++ caskroomDirsOf env) ++
  sectionHeader "HOMEBREW FORMULAE (CLI tools)" ++ formulaeOf env ++
  (if opts.compact then []
    else sectionHeader "BREW ENV & METADATA" ++
      streamLines env.brewConfig.out ++ streamLines env.brewDoctor.out ++
      sectionHeader "FULL BREW PACKAGE METADATA (JSON)" ++
      ["Saved JSON -> " ++ opts.jsonPath]) ++
  ["", "===============================", "Report complete!",
    "Text report: " ++ opts.reportPath] ++
  (if opts.compact then ["JSON metadata: skipped (compact mode)"]
    else ["JSON metadata: " ++ opts.jsonPath]) ++
  ["==============================="]

/-- The result record of a successful run. -/
def goodResult (env : Env) (opts : exportOptions) : exportResult :=
  { reportPath := opts.reportPath
    reportSizeBytes := env.statSize opts.reportPath
    brewJSONPath := if opts.compact then "" else opts.jsonPath
    brewJSONSizeBytes := if opts.compact then 0 else env.statSize opts.jsonPath
    compact := opts.compact
    stats := ⟨(appBundlesOf env).length, (systemAppsOf env).length,
      (userAppsOf env).length, (casksOf env).length, (formulaeOf env).length⟩
    durationSeconds := ((env.endNs - env.startNs : Int) : Rat) / 1000000000
    startedAt := env.startNs
    completedAt := env.endNs
    warnings := if opts.compact || env.brewDoctor.ok then [] else [doctorWarnOf env] }

/-- The number of lines in normal form (trimmed, non-blank) in a list of
lines. -/
def normalizedLineCount (ls : List String) : Nat :=
  (ls.filter (fun l => trimSpace l == l && l != "")).length

/-- The Caskroom root path used by `caskroomDirectories`:
`filepath.Join(<first line of brew --prefix>, "Caskroom")`. -/
def caskroomRootOf (env : Env) : String :=
  joinPath ((normalizeOutput env.brewPrefix.out).headD "") "Caskroom"

/-! ## JSON serialisation of `exportResult`

The structured JSON form produced by `encoding/json` for the
`exportResult` struct tags: an object with snake-case keys in struct
order, a nested `stats` object, and `warnings` omitted when empty
(`omitempty`).  JSON numbers are carried exactly (Go's encoder emits a
shortest decimal that round-trips, so every emitted number re-parses to
the same value). -/
inductive Json where
  | null
  | bool (b : Bool)
  | num (q : Rat)
  | str (s : String)
  | arr (elems : List Json)
  | obj (fields : List (String × Json))

/-- Field lookup in a JSON object literal (first match). -/
def lookupField : List (String × Json) → String → Option Json
  | [], _ => none
  | (k, v) :: rest, key => if k = key then some v else lookupField rest key

/-- Get a named field of a JSON object. -/
def Json.getField : Json → String → Option Json
  | .obj fs, key => lookupField fs key
  | _, _ => none

/-- Decode a JSON string. -/
def Json.asStr : Json → Option String
  | .str s => some s
  | _ => none

/-- Decode a JSON number into an integer (Go rejects fractional parts
when unmarshalling into an integer field). -/
def Json.asInt : Json → Option Int
  | .num q => if q.den = 1 then some q.num else none
  | _ => none

/-- Decode a JSON number. -/
def Json.asRat : Json → Option Rat
  | .num q => some q
  | _ => none

/-- Decode a JSON boolean. -/
def Json.asBool : Json → Option Bool
  | .bool b => some b
  | _ => none

/-- Decode a JSON array of strings. -/
def decodeStrList : List Json → Option (List String)
  | [] => some []
  | j :: js =>
    match j.asStr, decodeStrList js with
    | some s, some ss => some (s :: ss)
    | _, _ => none

/-- Marshal `exportStats` (struct tags `app_bundle_count`, ...). -/
def statsToJson (s : exportStats) : Json :=
  .obj [("app_bundle_count", .num s.appBundleCount),
    ("applications_dir_count", .num s.applicationsDirCount),
    ("user_applications_count", .num s.userApplicationsCount),
    ("brew_cask_count", .num s.brewCaskCount),
    ("brew_formula_count", .num s.brewFormulaCount)]

/-- Unmarshal `exportStats`. -/
def statsFromJson (j : Json) : Option exportStats := do
  let a1 ← (j.getField "app_bundle_count").bind Json.asInt
  let a2 ← (j.getField "applications_dir_count").bind Json.asInt
  let a3 ← (j.getField "user_applications_count").bind Json.asInt
  let a4 ← (j.getField "brew_cask_count").bind Json.asInt
  let a5 ← (j.getField "brew_formula_count").bind Json.asInt
  pure ⟨a1, a2, a3, a4, a5⟩

/-- Marshal `exportResult` per its struct tags; `warnings` carries
`omitempty` and is dropped when the list is empty. -/
def resultToJson (r : exportResult) : Json :=
  .obj ([("report_path", .str r.reportPath),
    ("report_size_bytes", .num r.reportSizeBytes),
    ("brew_json_path", .str r.brewJSONPath),
    ("brew_json_size_bytes", .num r.brewJSONSizeBytes),
    ("compact", .bool r.compact),
    ("stats", statsToJson r.stats),
    ("duration_seconds", .num r.durationSeconds),
    ("started_at", .num r.startedAt),
    ("completed_at", .num r.completedAt)] ++
    (if r.warnings = [] then []
      else [("warnings", .arr (r.warnings.map Json.str))]))

/-- Unmarshal `exportResult`; a missing `warnings` key yields the empty
list (Go leaves the slice nil). -/
def resultFromJson (j : Json) : Option exportResult := do
  let rp ← (j.getField "report_path").bind Json.asStr
  let rs ← (j.getField "report_size_bytes").bind Json.asInt
  let bp ← (j.getField "brew_json_path").bind Json.asStr
  let bs ← (j.getField "brew_json_size_bytes").bind Json.asInt
  let c ← (j.getField "compact").bind Json.asBool
  let st ← (j.getField "stats").bind statsFromJson
  let dsec ← (j.getField "duration_seconds").bind Json.asRat
  let sa ← (j.getField "started_at").bind Json.asInt
  let ca ← (j.getField "completed_at").bind Json.asInt
  let w ← match j.getField "warnings" with
    | none => some []
    | some (Json.arr js) => decodeStrList js
    | some _ => none
  pure ⟨rp, rs, bp, bs, c, st, dsec, sa, ca, w⟩

/-! ## Concrete environments for witnesses and counterexamples -/
/-- A successful external command with the given combined output. -/
def cmdOk (out : String) : CmdRes := ⟨true, out, ""⟩

/-- A failing external command with the given combined output and error
rendering. -/
def cmdFail (out errMsg : String) : CmdRes := ⟨false, out, errMsg⟩

/-- A baseline environment in which everything succeeds and every
listing is empty. -/
def envBase : Env :=
  { mdfindOnPath := true
    brewOnPath := true
    mkdirReportOk := true
    mkdirJSONOk := true
    createReportOk := true
    mdfindApps := cmdOk ""
    applicationsDir := ⟨true, [], ""⟩
    userApplicationsDir := ⟨true, [], ""⟩
    brewListCask := cmdOk ""
    brewPrefix := cmdOk ""
    caskroomStat := StatRes.notExist
    caskroomChildren := []
    brewListFormula := cmdOk ""
    brewConfig := cmdOk ""
    brewDoctor := cmdOk ""
    createJSONOk := true
    brewInfoJSON := cmdOk ""
    statSize := fun _ => 100
    startNs := 0
    endNs := 2000000000 }

/-- Options of a non-compact run. -/
def optsFull : exportOptions := ⟨"/tmp/report.txt", "/tmp/brew.json", false⟩

/-- Options of a compact run. -/
def optsCompact : exportOptions := ⟨"/tmp/report.txt", "/tmp/brew.json", true⟩

/-! ## Claim theorems -/
instance {e a : Type} [DecidableEq e] [DecidableEq a] :
    DecidableEq (Except e a) := fun x y =>
  match x, y with
  | Except.ok u, Except.ok v => decidable_of_iff (u = v) (by simp)
  | Except.error u, Except.error v => decidable_of_iff (u = v) (by simp)
  | Except.ok _, Except.error _ => isFalse (by simp)
  | Except.error _, Except.ok _ => isFalse (by simp)

/-- Environment for the C4 witness: a Caskroom with a cask directory, a
version directory, a depth-3 directory that must be pruned, and a plain
file. -/
def envC4 : Env := { envBase with
  brewPrefix := cmdOk "/opt/homebrew"
  caskroomStat := StatRes.found
  caskroomChildren := [FsEntry.dir "firefox"
      [FsEntry.dir "1.0" [FsEntry.dir "deep" [FsEntry.dir "deeper" []]]],
    FsEntry.file "notes.txt"] }

/-- Environment for the C10 witness: compact run in which even the
health-check command would fail — it is never invoked. -/
def envC10 : Env := { envBase with brewDoctor := cmdFail "" "exit status 1" }

/-- Environment for the C7 witness: `mdfind` absent from the search
path. -/
def envC7 : Env := { envBase with mdfindOnPath := false }

/-- All the inventory-phase interactions (everything before the
diagnostics block) succeeding. -/
def envOkInventory (env : Env) : Bool :=
  env.mdfindOnPath && env.brewOnPath && env.mkdirReportOk && env.mkdirJSONOk &&
  env.createReportOk && env.mdfindApps.ok && env.applicationsDir.ok &&
  env.brewListCask.ok && (caskroomDirectories env).isOk && env.brewListFormula.ok

/-- Environment for the C6 witness: `brew doctor` exits non-zero after
printing advice. -/
def envC6 : Env := { envBase with
  brewDoctor := cmdFail "Warning: unbrewed files\n" "exit status 1" }

/-- Environment for the C8 counterexample and witness: the required
search-tool inventory command fails. -/
def envC8 : Env := { envBase with mdfindApps := cmdFail "boom" "exit status 1" }

/-- Environment for the C2 counterexample and witness: `brew config`
fails. -/
def envC2 : Env := { envBase with brewConfig := cmdFail "" "exit status 1" }

/-- Environment for the C1 counterexample: `/Applications` contains an
entry whose name is a single space (a legal, if unusual, macOS file
name). -/
def envC1 : Env := { envBase with applicationsDir := ⟨true, [" "], ""⟩ }

/-- Environment for the C1 witness: unnormalised search-tool output, an
unsorted `/Applications` listing, a missing `~/Applications`, and the
spec's cask-listing scenario `"wget 1.21\ncurl 8.0\n\n"`. -/
def envC1w : Env := { envBase with
  mdfindApps := cmdOk "  /Applications/Zed.app  \n\n/Applications/App.app\n"
  applicationsDir := ⟨true, ["b.app", "a.app"], ""⟩
  userApplicationsDir := ⟨false, [], "no such directory"⟩
  brewListCask := cmdOk "wget 1.21\ncurl 8.0\n\n"
  brewListFormula := cmdOk "jq 1.7" }

/-- Environment for the C3 counterexample: `brew config` succeeds with
output whose lines are not in sorted order. -/
def envC3 : Env := { envBase with brewConfig := cmdOk "b\na\n" }

/-- Environment for the C3 witness: the spec's scenario, a search-tool
output listing `Foo.app` before `Bar.app`. -/
def envC3w : Env := { envBase with
  mdfindApps := cmdOk "/Applications/Foo.app\n/Applications/Bar.app" }

/-! ## Theorems -/

theorem goLtChars_asymm :
    ∀ a b : List Char, goLtChars a b = true → goLtChars b a = false
  | [], [], h => by simp [goLtChars] at h
  | [], _ :: _, _ => by simp [goLtChars]
  | _ :: _, [], h => by simp [goLtChars] at h
  | a :: as, b :: bs, h => by
    by_cases hab : a < b
    · simp [goLtChars, hab, asymm hab]
    · by_cases hba : b < a
      · simp [goLtChars, hab, hba] at h
      · simp only [goLtChars, if_neg hab, if_neg hba] at h
        simp [goLtChars, hab, hba, goLtChars_asymm as bs h]

theorem goLtChars_conn :
    ∀ a b : List Char, goLtChars a b = false → goLtChars b a = false → a = b
  | [], [], _, _ => rfl
  | [], _ :: _, h, _ => by simp [goLtChars] at h
  | _ :: _, [], _, h' => by simp [goLtChars] at h'
  | a :: as, b :: bs, h, h' => by
    by_cases hab : a < b
    · simp [goLtChars, hab] at h
    · by_cases hba : b < a
      · simp [goLtChars, hba] at h'
      · have hhead : a = b := le_antisymm (not_lt.mp hba) (not_lt.mp hab)
        simp only [goLtChars, if_neg hab, if_neg hba] at h
        simp [hhead, goLtChars_conn as bs h (by
          simpa [goLtChars, hab, hba] using h')]

theorem goLtChars_trans :
    ∀ a b c : List Char, goLtChars a b = true → goLtChars b c = true →
      goLtChars a c = true
  | [], b, c, _, hbc => by
    cases c with
    | nil =>
      cases b with
      | nil => simp [goLtChars] at hbc
      | cons x xs => simp [goLtChars] at hbc
    | cons y ys => simp [goLtChars]
  | _ :: _, [], _, hab, _ => by simp [goLtChars] at hab
  | a :: as, b :: bs, [], _, hbc => by simp [goLtChars] at hbc
  | a :: as, b :: bs, c :: cs, hab, hbc => by
    by_cases h1 : a < b
    · by_cases h2 : b < c
      · simp [goLtChars, lt_trans h1 h2]
      · by_cases h3 : c < b
        · simp [goLtChars, h2, h3] at hbc
        · have : b = c := le_antisymm (not_lt.mp h3) (not_lt.mp h2)
          simp [goLtChars, this ▸ h1]
    · by_cases h1' : b < a
      · simp [goLtChars, h1, h1'] at hab
      · have hab' : a = b := le_antisymm (not_lt.mp h1') (not_lt.mp h1)
        simp only [goLtChars, if_neg h1, if_neg h1'] at hab
        by_cases h2 : b < c
        · simp [goLtChars, hab' ▸ h2]
        · by_cases h3 : c < b
          · simp [goLtChars, h2, h3] at hbc
          · simp only [goLtChars, if_neg h2, if_neg h3] at hbc
            have hbc' : b = c := le_antisymm (not_lt.mp h3) (not_lt.mp h2)
            subst hab'
            subst hbc'
            simp [goLtChars, goLtChars_trans as bs cs hab hbc]

instance : IsTotal String strLeRel := by
  constructor
  intro a b
  by_cases h : goLtChars b.data a.data = true
  · right
    simp [strLeRel, strLe, goLtChars_asymm _ _ h]
  · left
    simp [strLeRel, strLe]
    simpa using h

instance : IsTrans String strLeRel := by
  constructor
  intro a b c hab hbc
  simp only [strLeRel, strLe, Bool.not_eq_true'] at hab hbc ⊢
  by_contra hca
  rw [Bool.not_eq_false] at hca
  by_cases hbc2 : goLtChars b.data c.data = true
  · exact absurd (goLtChars_trans b.data c.data a.data hbc2 hca) (by simp [hab])
  · have hbceq : b.data = c.data :=
      goLtChars_conn b.data c.data (by simpa using hbc2) hbc
    rw [← hbceq] at hca
    simp [hca] at hab

theorem sortStrings_sorted (l : List String) :
    List.Sorted strLeRel (sortStrings l) :=
  List.sorted_insertionSort strLeRel l

theorem sortStrings_perm (l : List String) : (sortStrings l).Perm l :=
  List.perm_insertionSort strLeRel l

theorem string_append_ne_empty (a b : String) (h : a.data ≠ []) : a ++ b ≠ "" := by
  intro he
  have := congrArg String.data he
  rw [String.data_append] at this
  rcases List.append_eq_nil.mp this with ⟨h1, _⟩
  exact h h1

theorem doctorWarnOf_ne_empty (env : Env) (h : env.brewDoctor.ok = false) :
    doctorWarnOf env ≠ "" := by
  unfold doctorWarnOf appendCommandOutput
  rw [h]
  simp only [Bool.false_eq_true, if_false, if_true]
  by_cases hm : trimSpace env.brewDoctor.out ≠ ""
  · simp only [if_pos hm]
    exact string_append_ne_empty _ _ (by simp [String.data_append])
  · simp only [if_neg hm]
    exact string_append_ne_empty _ _ (by simp [String.data_append])

theorem doctorWarnOf_of_ok (env : Env) (h : env.brewDoctor.ok = true) :
    doctorWarnOf env = "" := by
  simp [doctorWarnOf, appendCommandOutput, h]

theorem appendDoctor_eq (env : Env) :
    appendCommandOutput true "brew doctor" env.brewDoctor =
      ⟨streamLines env.brewDoctor.out, doctorWarnOf env, none⟩ := by
  unfold doctorWarnOf appendCommandOutput
  cases h : env.brewDoctor.ok <;> simp

theorem appendConfig_ok (env : Env) (h : env.brewConfig.ok = true) :
    appendCommandOutput false "brew config" env.brewConfig =
      ⟨streamLines env.brewConfig.out, "", none⟩ := by
  simp [appendCommandOutput, h]

/-- Closed form of `runExport` on a run whose required external
interactions all succeed: no error, the sectioned report `goodReport`,
the result `goodResult`, and exactly the report file (plus, outside
compact mode, the JSON file) created. -/
theorem runExport_envOk (env : Env) (opts : exportOptions)
    (h : envOk env opts = true) :
    runExport env opts =
      ⟨goodResult env opts, none, goodReport env opts,
        if opts.compact then [opts.reportPath]
        else [opts.reportPath, opts.jsonPath]⟩ := by
  simp only [envOk, Bool.and_eq_true, Bool.or_eq_true] at h
  obtain ⟨⟨⟨⟨⟨⟨⟨⟨⟨h1, h2⟩, h3⟩, h4⟩, h5⟩, h6⟩, h7⟩, h8⟩, h9⟩, h10⟩ := h
  by_cases hc : opts.compact
  · by_cases hu : env.userApplicationsDir.ok <;>
      simp [runExport, commandLines, listDirSorted, goodReport, goodResult,
        appBundlesOf, systemAppsOf, userAppsOf, casksOf, formulaeOf,
        exportResult.zero, exportStats.zero,
        h1, h2, h3, h4, h5, h6, h7, h8, h9, hu, hc, List.append_assoc]
  · replace h10 := h10.resolve_left (by simpa using hc)
    simp only [Bool.and_eq_true] at h10
    obtain ⟨⟨⟨hcask, hcfg⟩, hcj⟩, hbi⟩ := h10
    obtain ⟨ds, hds⟩ : ∃ ds, caskroomDirectories env = Except.ok ds := by
      cases hk : caskroomDirectories env with
      | ok a => exact ⟨a, rfl⟩
      | error e => rw [hk] at hcask; simp [Except.isOk, Except.toBool] at hcask
    by_cases hu : env.userApplicationsDir.ok <;>
      by_cases hd : env.brewDoctor.ok
    · simp [runExport, commandLines, listDirSorted, goodReport, goodResult,
        appBundlesOf, systemAppsOf, userAppsOf, casksOf, formulaeOf,
        caskroomDirsOf, appendConfig_ok env hcfg, appendDoctor_eq,
        doctorWarnOf_of_ok env hd, exportResult.zero, exportStats.zero,
        h1, h2, h3, h4, h5, h6, h7, h8, h9, hu, hc, hds, hcj, hbi, hd,
        List.append_assoc]
    · simp [runExport, commandLines, listDirSorted, goodReport, goodResult,
        appBundlesOf, systemAppsOf, userAppsOf, casksOf, formulaeOf,
        caskroomDirsOf, appendConfig_ok env hcfg, appendDoctor_eq,
        doctorWarnOf_ne_empty env (by rwa [Bool.not_eq_true] at hd),
        exportResult.zero, exportStats.zero,
        h1, h2, h3, h4, h5, h6, h7, h8, h9, hu, hc, hds, hcj, hbi, hd,
        List.append_assoc]
    · simp [runExport, commandLines, listDirSorted, goodReport, goodResult,
        appBundlesOf, systemAppsOf, userAppsOf, casksOf, formulaeOf,
        caskroomDirsOf, appendConfig_ok env hcfg, appendDoctor_eq,
        doctorWarnOf_of_ok env hd, exportResult.zero, exportStats.zero,
        h1, h2, h3, h4, h5, h6, h7, h8, h9, hu, hc, hds, hcj, hbi, hd,
        List.append_assoc]
    · simp [runExport, commandLines, listDirSorted, goodReport, goodResult,
        appBundlesOf, systemAppsOf, userAppsOf, casksOf, formulaeOf,
        caskroomDirsOf, appendConfig_ok env hcfg, appendDoctor_eq,
        doctorWarnOf_ne_empty env (by rwa [Bool.not_eq_true] at hd),
        exportResult.zero, exportStats.zero,
        h1, h2, h3, h4, h5, h6, h7, h8, h9, hu, hc, hds, hcj, hbi, hd,
        List.append_assoc]

/-- Conversely, a run that returns no error must have succeeded at every
required external interaction. -/
theorem envOk_of_err_none (env : Env) (opts : exportOptions)
    (h : (runExport env opts).err = none) : envOk env opts = true := by
  by_cases h1 : env.mdfindOnPath
  case neg => rw [Bool.not_eq_true] at h1; simp [runExport, h1] at h
  by_cases h2 : env.brewOnPath
  case neg => rw [Bool.not_eq_true] at h2; simp [runExport, h1, h2] at h
  by_cases h3 : env.mkdirReportOk
  case neg => rw [Bool.not_eq_true] at h3; simp [runExport, h1, h2, h3] at h
  by_cases h4 : env.mkdirJSONOk
  case neg => rw [Bool.not_eq_true] at h4; simp [runExport, h1, h2, h3, h4] at h
  by_cases h5 : env.createReportOk
  case neg =>
    rw [Bool.not_eq_true] at h5; simp [runExport, h1, h2, h3, h4, h5] at h
  by_cases h6 : env.mdfindApps.ok
  case neg =>
    rw [Bool.not_eq_true] at h6
    simp [runExport, commandLines, h1, h2, h3, h4, h5, h6] at h
  by_cases h7 : env.applicationsDir.ok
  case neg =>
    rw [Bool.not_eq_true] at h7
    simp [runExport, commandLines, listDirSorted,
      h1, h2, h3, h4, h5, h6, h7] at h
  by_cases h8 : env.brewListCask.ok
  case neg =>
    rw [Bool.not_eq_true] at h8
    simp [runExport, commandLines, listDirSorted,
      h1, h2, h3, h4, h5, h6, h7, h8] at h
  by_cases hc : opts.compact
  · by_cases h9 : env.brewListFormula.ok
    case neg =>
      rw [Bool.not_eq_true] at h9
      simp [runExport, commandLines, listDirSorted,
        h1, h2, h3, h4, h5, h6, h7, h8, h9, hc] at h
    simp [envOk, h1, h2, h3, h4, h5, h6, h7, h8, h9, hc]
  · rw [Bool.not_eq_true] at hc
    cases hk : caskroomDirectories env with
    | error e =>
      simp [runExport, commandLines, listDirSorted,
        h1, h2, h3, h4, h5, h6, h7, h8, hc, hk] at h
    | ok ds =>
    by_cases h9 : env.brewListFormula.ok
    case neg =>
      rw [Bool.not_eq_true] at h9
      simp [runExport, commandLines, listDirSorted,
        h1, h2, h3, h4, h5, h6, h7, h8, h9, hc, hk] at h
    by_cases hcfg : env.brewConfig.ok
    case neg =>
      rw [Bool.not_eq_true] at hcfg
      simp [runExport, commandLines, listDirSorted, appendCommandOutput,
        h1, h2, h3, h4, h5, h6, h7, h8, h9, hc, hk, hcfg] at h
    by_cases hcj : env.createJSONOk
    case neg =>
      rw [Bool.not_eq_true] at hcj
      simp [runExport, commandLines, listDirSorted,
        appendConfig_ok env hcfg, appendDoctor_eq,
        h1, h2, h3, h4, h5, h6, h7, h8, h9, hc, hk, hcj] at h
    by_cases hbi : env.brewInfoJSON.ok
    case neg =>
      rw [Bool.not_eq_true] at hbi
      simp [runExport, commandLines, listDirSorted,
        appendConfig_ok env hcfg, appendDoctor_eq,
        h1, h2, h3, h4, h5, h6, h7, h8, h9, hc, hk, hcj, hbi] at h
    simp [envOk, Except.isOk, Except.toBool,
      h1, h2, h3, h4, h5, h6, h7, h8, h9, hc, hk, hcfg, hcj, hbi]

/-! ## Normalised lines -/
theorem dropWhile_self_idem (p : Char → Bool) (l : List Char) :
    (l.dropWhile p).dropWhile p = l.dropWhile p := by
  cases hD : l.dropWhile p with
  | nil => simp
  | cons a t =>
    have h := List.head?_dropWhile_not p l
    rw [hD] at h
    simp only [List.head?_cons] at h
    simp [List.dropWhile_cons, h]

theorem dropWhile_trimChars (l : List Char) :
    (trimChars l).dropWhile Char.isWhitespace = trimChars l := by
  unfold trimChars
  cases hC : ((l.dropWhile Char.isWhitespace).reverse.dropWhile Char.isWhitespace) with
  | nil => simp
  | cons a t =>
    cases hR : (a :: t).reverse with
    | nil => simp at hR
    | cons b u =>
      have hb : ((a :: t).reverse).head? = some b := by rw [hR]; rfl
      rw [List.head?_reverse] at hb
      obtain ⟨pre, hpre⟩ :=
        List.dropWhile_suffix (l := (l.dropWhile Char.isWhitespace).reverse)
          Char.isWhitespace
      rw [hC] at hpre
      have hlast : ((l.dropWhile Char.isWhitespace).reverse).getLast? = some b := by
        rw [← hpre, List.getLast?_append, hb]
        rfl
      rw [List.getLast?_reverse] at hlast
      have hhead := List.head?_dropWhile_not Char.isWhitespace l
      rw [hlast] at hhead
      have hbws : b.isWhitespace = false := by simpa using hhead
      simp [List.dropWhile_cons, hbws]

theorem trimChars_idem (l : List Char) :
    trimChars (trimChars l) = trimChars l := by
  conv_lhs => rw [show trimChars (trimChars l) =
    (((trimChars l).dropWhile Char.isWhitespace).reverse.dropWhile
      Char.isWhitespace).reverse from rfl]
  rw [dropWhile_trimChars]
  show ((((l.dropWhile Char.isWhitespace).reverse.dropWhile
    Char.isWhitespace).reverse).reverse.dropWhile Char.isWhitespace).reverse = _
  rw [List.reverse_reverse, dropWhile_self_idem]
  rfl

theorem trimSpace_idem (s : String) : trimSpace (trimSpace s) = trimSpace s := by
  simp [trimSpace, trimChars_idem]

/-- Every line produced by `commandLines` normalisation is in normal
form: trimming it is the identity and it is non-blank. -/
theorem normalizeOutput_normalized (s : String) :
    ∀ l ∈ normalizeOutput s, trimSpace l = l ∧ l ≠ "" := by
  intro l hl
  unfold normalizeOutput at hl
  rw [List.mem_filter] at hl
  obtain ⟨hm, hne⟩ := hl
  rw [List.mem_map] at hm
  obtain ⟨x, _, rfl⟩ := hm
  exact ⟨trimSpace_idem x, by simpa using hne⟩

/-! ## Depth bound of the Caskroom walk -/
mutual

/-- Every path the walk collects satisfies the walk's own depth guard:
its separator count relative to the root is at most 2. -/
theorem walkFrom_depth_le (root : String) :
    ∀ (e : FsEntry) (path : String), ∀ p ∈ walkFrom root path e,
      sepCount (trimPrefix p root) ≤ 2
  | .file n, path => by simp [walkFrom]
  | .dir n cs, path => by
    by_cases hgt : sepCount (trimPrefix path root) > 2
    · simp [walkFrom, hgt]
    · intro p hp
      rw [walkFrom, if_neg hgt] at hp
      rcases List.mem_cons.mp hp with rfl | hp'
      · omega
      · exact walkList_depth_le root cs path p hp'

theorem walkList_depth_le (root : String) :
    ∀ (l : List FsEntry) (path : String), ∀ p ∈ walkList root path l,
      sepCount (trimPrefix p root) ≤ 2
  | [], path => by simp [walkList]
  | c :: cs, path => by
    intro p hp
    rw [walkList, List.mem_append] at hp
    rcases hp with hp | hp
    · exact walkFrom_depth_le root c (path ++ "/" ++ c.name) p hp
    · exact walkList_depth_le root cs path p hp

end

/-- A directory whose depth guard fails is pruned outright: the walk
collects nothing from it and does not descend into its subtree. -/
theorem walkFrom_pruned (root path : String) (n : String) (cs : List FsEntry)
    (h : sepCount (trimPrefix path root) > 2) :
    walkFrom root path (.dir n cs) = [] := by
  rw [walkFrom, if_pos h]

theorem trimPrefix_self (s : String) : trimPrefix s s = "" := by
  have h1 : s.data.isPrefixOf s.data = true :=
    List.isPrefixOf_iff_prefix.mpr List.prefix_rfl
  rw [trimPrefix, if_pos h1]
  show String.mk (s.data.drop s.data.length) = ""
  rw [List.drop_length]

/-- Every directory the Caskroom enumeration returns is at depth at most
2 relative to the Caskroom root. -/
theorem caskroomDirectories_depth_le (env : Env) (ds : List String)
    (h : caskroomDirectories env = Except.ok ds) :
    ∀ p ∈ ds, sepCount (trimPrefix p (caskroomRootOf env)) ≤ 2 := by
  unfold caskroomDirectories at h
  cases hcl : commandLines "brew" env.brewPrefix with
  | error e => rw [hcl] at h; exact absurd h (by simp)
  | ok lines =>
    rw [hcl] at h
    cases lines with
    | nil =>
      cases h
      intro p hp
      simp at hp
    | cons hd tl =>
      have hroot : caskroomRootOf env = joinPath hd "Caskroom" := by
        unfold commandLines at hcl
        by_cases hok : env.brewPrefix.ok
        · rw [if_pos hok] at hcl
          injection hcl with hcl2
          simp [caskroomRootOf, hcl2]
        · rw [if_neg hok] at hcl
          cases hcl
      cases hstat : env.caskroomStat with
      | notExist =>
        rw [hstat] at h
        cases h
        intro p hp
        simp at hp
      | statErr m => rw [hstat] at h; exact absurd h (by simp)
      | found =>
        rw [hstat] at h
        simp only at h
        cases h
        intro p hp
        rw [hroot]
        have hp' := (sortStrings_perm _).mem_iff.mp hp
        exact walkFrom_depth_le (joinPath hd "Caskroom")
          (FsEntry.dir "Caskroom" env.caskroomChildren)
          (joinPath hd "Caskroom") p hp'

/-- A nonexistent Caskroom yields an empty list and no error. -/
theorem caskroomDirectories_notExist (env : Env)
    (hok : env.brewPrefix.ok = true) (hst : env.caskroomStat = StatRes.notExist) :
    caskroomDirectories env = Except.ok [] := by
  have hcl : commandLines "brew" env.brewPrefix =
      Except.ok (normalizeOutput env.brewPrefix.out) := by
    simp [commandLines, hok]
  unfold caskroomDirectories
  rw [hcl]
  set lines := normalizeOutput env.brewPrefix.out with hl
  clear_value lines
  clear hl hcl
  cases lines with
  | nil => rfl
  | cons hd tl => simp [hst]

theorem decodeStrList_map_str (ws : List String) :
    decodeStrList (ws.map Json.str) = some ws := by
  induction ws with
  | nil => rfl
  | cons w rest ih => simp [decodeStrList, Json.asStr, ih]

theorem caskroomDirectories_sorted (env : Env) (ds : List String)
    (h : caskroomDirectories env = Except.ok ds) :
    List.Sorted strLeRel ds := by
  unfold caskroomDirectories at h
  cases hcl : commandLines "brew" env.brewPrefix with
  | error e => rw [hcl] at h; exact absurd h (by simp)
  | ok lines =>
    rw [hcl] at h
    cases lines with
    | nil => cases h; exact List.sorted_nil
    | cons hd tl =>
      cases hstat : env.caskroomStat with
      | notExist => rw [hstat] at h; cases h; exact List.sorted_nil
      | statErr m => rw [hstat] at h; exact absurd h (by simp)
      | found =>
        rw [hstat] at h
        simp only at h
        cases h
        exact sortStrings_sorted _

theorem caskroomDirsOf_sorted (env : Env) :
    List.Sorted strLeRel (caskroomDirsOf env) := by
  unfold caskroomDirsOf
  cases hk : caskroomDirectories env with
  | error e => exact List.sorted_nil
  | ok ds => exact caskroomDirectories_sorted env ds hk

/-- C4: the Caskroom walk collects only directories of depth at most 2
relative to the Caskroom root; a directory failing the depth guard is
pruned outright (nothing is collected from its entire subtree); and a
nonexistent Caskroom yields an empty list rather than an error. -/
theorem caskroom_walk_depth_bounded_and_tolerant :
    (∀ (env : Env) (ds : List String), caskroomDirectories env = Except.ok ds →
      ∀ p ∈ ds, sepCount (trimPrefix p (caskroomRootOf env)) ≤ 2) ∧
    (∀ (root path n : String) (cs : List FsEntry),
      sepCount (trimPrefix path root) > 2 →
      walkFrom root path (FsEntry.dir n cs) = []) ∧
    (∀ env : Env, env.brewPrefix.ok = true →
      env.caskroomStat = StatRes.notExist →
      caskroomDirectories env = Except.ok []) :=
  ⟨caskroomDirectories_depth_le,
    fun root path n cs h => walkFrom_pruned root path n cs h,
    caskroomDirectories_notExist⟩

/-- Witness for C4 at concrete inputs: the walk of `envC4` returns
exactly the root, the cask directory and the version directory (the
depth-3 `deep` subtree is pruned), all within depth 2; a directory past
the guard contributes nothing; and `envBase` (whose Caskroom does not
exist) yields the empty list. -/
theorem caskroom_walk_depth_bounded_and_tolerant_witness :
    (∀ p ∈ ["/opt/homebrew/Caskroom", "/opt/homebrew/Caskroom/firefox",
        "/opt/homebrew/Caskroom/firefox/1.0"],
      sepCount (trimPrefix p (caskroomRootOf envC4)) ≤ 2) ∧
    walkFrom "/r" "/r/a/b/c" (FsEntry.dir "c" [FsEntry.dir "d" []]) = [] ∧
    caskroomDirectories envBase = Except.ok [] :=
  ⟨caskroom_walk_depth_bounded_and_tolerant.1 envC4
      ["/opt/homebrew/Caskroom", "/opt/homebrew/Caskroom/firefox",
        "/opt/homebrew/Caskroom/firefox/1.0"] (by decide),
    caskroom_walk_depth_bounded_and_tolerant.2.1 "/r" "/r/a/b/c" "c"
      [FsEntry.dir "d" []] (by decide),
    caskroom_walk_depth_bounded_and_tolerant.2.2 envBase (by decide) (by decide)⟩

/-- C9: serialising an `exportResult` to the structured JSON form and
parsing it back yields a value equal field-for-field to the original. -/
theorem exportResult_json_roundtrip (r : exportResult) :
    resultFromJson (resultToJson r) = some r := by
  obtain ⟨rp, rs, bp, bs, c, st, dsec, sa, ca, w⟩ := r
  obtain ⟨a1, a2, a3, a4, a5⟩ := st
  by_cases hw : w = []
  · subst hw
    simp [resultToJson, resultFromJson, statsToJson, statsFromJson,
      Json.getField, lookupField, Json.asStr, Json.asInt, Json.asRat,
      Json.asBool, Rat.den_intCast, Rat.num_intCast]
  · simp [resultToJson, resultFromJson, statsToJson, statsFromJson,
      Json.getField, lookupField, Json.asStr, Json.asInt, Json.asRat,
      Json.asBool, Rat.den_intCast, Rat.num_intCast, hw,
      decodeStrList_map_str]

/-- C5: in compact mode, a successful run's result carries an empty
metadata JSON path and a zero metadata size, and the closing banner
states that metadata output was skipped. -/
theorem compact_zeroes_metadata_and_banner (env : Env) (opts : exportOptions)
    (h : (runExport env opts).err = none) (hc : opts.compact = true) :
    (runExport env opts).result.brewJSONPath = "" ∧
    (runExport env opts).result.brewJSONSizeBytes = 0 ∧
    "JSON metadata: skipped (compact mode)" ∈ (runExport env opts).report := by
  have hok := envOk_of_err_none env opts h
  rw [runExport_envOk env opts hok]
  simp [goodResult, goodReport, hc]

/-- Witness for C5: a concrete successful compact run. -/
theorem compact_zeroes_metadata_and_banner_witness :
    (runExport envBase optsCompact).err = none ∧
    ((runExport envBase optsCompact).result.brewJSONPath = "" ∧
      (runExport envBase optsCompact).result.brewJSONSizeBytes = 0 ∧
      "JSON metadata: skipped (compact mode)" ∈
        (runExport envBase optsCompact).report) :=
  ⟨by decide, compact_zeroes_metadata_and_banner envBase optsCompact
    (by decide) rfl⟩

/-- C10: a successful compact run records no warnings at all: the
diagnostic commands that are the only source of warnings are skipped. -/
theorem compact_run_has_no_warnings (env : Env) (opts : exportOptions)
    (h : (runExport env opts).err = none) (hc : opts.compact = true) :
    (runExport env opts).result.warnings = [] := by
  have hok := envOk_of_err_none env opts h
  rw [runExport_envOk env opts hok]
  simp [goodResult, hc]

/-- Witness for C10: a compact run whose `brew doctor` would exit
non-zero still reports an empty warning list. -/
theorem compact_run_has_no_warnings_witness :
    (runExport envC10 optsCompact).err = none ∧
    (runExport envC10 optsCompact).result.warnings = [] :=
  ⟨by decide, compact_run_has_no_warnings envC10 optsCompact (by decide) rfl⟩

/-- C7: when a required executable is missing, the export fails with the
missing-dependency error before any output file is created: no file is
created and nothing is written. -/
theorem preflight_before_any_file (env : Env) (opts : exportOptions)
    (h : env.mdfindOnPath = false ∨ env.brewOnPath = false) :
    (runExport env opts).created = [] ∧
    (runExport env opts).report = [] ∧
    ((runExport env opts).err = some (ExportErr.cli (missingCmdError "mdfind"
        "Spotlight CLI missing. Ensure you're on macOS with Spotlight enabled.")) ∨
      (runExport env opts).err = some (ExportErr.cli (missingCmdError "brew"
        "Install Homebrew from https://brew.sh/ to capture casks and formulae."))) := by
  rcases h with h | h
  · simp [runExport, h, missingCmdError]
  · by_cases hm : env.mdfindOnPath
    · simp [runExport, h, hm, missingCmdError]
    · rw [Bool.not_eq_true] at hm
      simp [runExport, hm, missingCmdError]

/-- Witness for C7: with `mdfind` missing, nothing is created or written
and the missing-dependency error is returned. -/
theorem preflight_before_any_file_witness :
    (envC7.mdfindOnPath = false ∨ envC7.brewOnPath = false) ∧
    ((runExport envC7 optsFull).created = [] ∧
      (runExport envC7 optsFull).report = [] ∧
      ((runExport envC7 optsFull).err = some (ExportErr.cli (missingCmdError "mdfind"
          "Spotlight CLI missing. Ensure you're on macOS with Spotlight enabled.")) ∨
        (runExport envC7 optsFull).err = some (ExportErr.cli (missingCmdError "brew"
          "Install Homebrew from https://brew.sh/ to capture casks and formulae.")))) :=
  ⟨Or.inl rfl, preflight_before_any_file envC7 optsFull (Or.inl rfl)⟩

/-- C6: when everything required succeeds but `brew doctor` exits
non-zero in a non-compact run, the run still completes without error and
exactly one warning entry — containing the command name `brew doctor` —
is recorded. -/
theorem health_check_failure_single_warning (env : Env) (opts : exportOptions)
    (hok : envOk env opts = true) (hc : opts.compact = false)
    (hd : env.brewDoctor.ok = false) :
    (runExport env opts).err = none ∧
    ∃ t, (runExport env opts).result.warnings = ["brew doctor" ++ t] := by
  rw [runExport_envOk env opts hok]
  refine ⟨rfl, ?_⟩
  simp only [goodResult, hc, hd, Bool.or_self, Bool.false_eq_true, if_false]
  unfold doctorWarnOf appendCommandOutput
  rw [hd]
  simp only [Bool.false_eq_true, if_false]
  by_cases hm : trimSpace env.brewDoctor.out = ""
  · refine ⟨" failed: " ++ env.brewDoctor.errMsg, ?_⟩
    simp only [hm, String.append_assoc]
    simp
  · refine ⟨" failed: " ++ (env.brewDoctor.errMsg ++
      (": " ++ trimSpace env.brewDoctor.out)), ?_⟩
    simp only [String.append_assoc]
    simp [hm]

/-- Witness for C6: the failing health check yields a completed run with
the single `brew doctor` warning. -/
theorem health_check_failure_single_warning_witness :
    envOk envC6 optsFull = true ∧ envC6.brewDoctor.ok = false ∧
    ((runExport envC6 optsFull).err = none ∧
      ∃ t, (runExport envC6 optsFull).result.warnings = ["brew doctor" ++ t]) :=
  ⟨by decide, rfl,
    health_check_failure_single_warning envC6 optsFull (by decide) rfl rfl⟩

/-- C8 counterexample: when the `mdfind` inventory command fails, the
run does abort with an error, but the returned result's report path
field is *not* empty — it already references the created report file. -/
theorem c8_counterexample :
    (runExport envC8 optsFull).err ≠ none ∧
    (runExport envC8 optsFull).result.reportPath = "/tmp/report.txt" ∧
    ¬ (runExport envC8 optsFull).result.reportPath = "" ∧
    (runExport envC8 optsFull).created = ["/tmp/report.txt"] := by decide

/-- C8 (amended): when a required inventory command fails after the
preflight checks and report-file creation succeed, the run aborts with
the wrapped fatal error; the result returned alongside the error (and
discarded by the caller) already has its report path set to the created
report file. -/
theorem required_command_failure_aborts (env : Env) (opts : exportOptions)
    (h1 : env.mdfindOnPath = true) (h2 : env.brewOnPath = true)
    (h3 : env.mkdirReportOk = true) (h4 : env.mkdirJSONOk = true)
    (h5 : env.createReportOk = true) (hm : env.mdfindApps.ok = false) :
    (runExport env opts).err = some (ExportErr.cli (wrapCommandErr "mdfind"
      ("mdfind: " ++ env.mdfindApps.errMsg ++ ": " ++ trimSpace env.mdfindApps.out)
      "")) ∧
    (runExport env opts).result.reportPath = opts.reportPath ∧
    (runExport env opts).created = [opts.reportPath] := by
  simp [runExport, commandLines, h1, h2, h3, h4, h5, hm, exportResult.zero]

/-- Witness for the amended C8 at the concrete failing environment. -/
theorem required_command_failure_aborts_witness :
    envC8.mdfindApps.ok = false ∧
    ((runExport envC8 optsFull).err = some (ExportErr.cli (wrapCommandErr "mdfind"
        ("mdfind: " ++ envC8.mdfindApps.errMsg ++ ": " ++
          trimSpace envC8.mdfindApps.out) "")) ∧
      (runExport envC8 optsFull).result.reportPath = optsFull.reportPath ∧
      (runExport envC8 optsFull).created = [optsFull.reportPath]) :=
  ⟨rfl, required_command_failure_aborts envC8 optsFull rfl rfl rfl rfl rfl rfl⟩

/-- C2 counterexample: a failing `brew config` is *fatal*: the run
aborts with a wrapped command error and no warning is recorded —
`appendCommandOutput` is called with `allowWarn = false` for it. -/
theorem c2_counterexample :
    (runExport envC2 optsFull).err =
      some (ExportErr.cli (wrapCommandErr "brew config" "exit status 1" "")) ∧
    (runExport envC2 optsFull).result.warnings = [] := by decide

/-- C2 (amended): in a non-compact run whose inventory phase succeeds,
a failing `brew config` aborts the export with the wrapped fatal error
and records no warning; only the `brew doctor` health check is
downgraded to a warning. -/
theorem config_dump_failure_is_fatal (env : Env) (opts : exportOptions)
    (hinv : envOkInventory env = true) (hc : opts.compact = false)
    (hcfg : env.brewConfig.ok = false) :
    (runExport env opts).err = some (ExportErr.cli (wrapCommandErr "brew config"
      env.brewConfig.errMsg (trimSpace env.brewConfig.out))) ∧
    (runExport env opts).result.warnings = [] := by
  simp only [envOkInventory, Bool.and_eq_true] at hinv
  obtain ⟨⟨⟨⟨⟨⟨⟨⟨⟨h1, h2⟩, h3⟩, h4⟩, h5⟩, h6⟩, h7⟩, h8⟩, hcask⟩, h9⟩ := hinv
  obtain ⟨ds, hds⟩ : ∃ ds, caskroomDirectories env = Except.ok ds := by
    cases hk : caskroomDirectories env with
    | ok a => exact ⟨a, rfl⟩
    | error e => rw [hk] at hcask; simp [Except.isOk, Except.toBool] at hcask
  by_cases hu : env.userApplicationsDir.ok <;>
    simp [runExport, commandLines, listDirSorted, appendCommandOutput,
      h1, h2, h3, h4, h5, h6, h7, h8, h9, hds, hc, hcfg, hu, exportResult.zero]

/-- Witness for the amended C2 at the concrete failing environment. -/
theorem config_dump_failure_is_fatal_witness :
    envOkInventory envC2 = true ∧ envC2.brewConfig.ok = false ∧
    ((runExport envC2 optsFull).err = some (ExportErr.cli (wrapCommandErr
        "brew config" envC2.brewConfig.errMsg (trimSpace envC2.brewConfig.out))) ∧
      (runExport envC2 optsFull).result.warnings = []) :=
  ⟨by decide, rfl,
    config_dump_failure_is_fatal envC2 optsFull (by decide) rfl rfl⟩

/-- C1 counterexample: the `/Applications` count is taken from the raw
directory entry names, which are not normalised; with a whitespace-only
entry the count (1) differs from the number of normalised (trimmed,
non-blank) lines written under the section (0). -/
theorem c1_counterexample :
    (runExport envC1 optsCompact).err = none ∧
    (runExport envC1 optsCompact).result.stats.applicationsDirCount = 1 ∧
    systemAppsOf envC1 = [" "] ∧
    normalizedLineCount (systemAppsOf envC1) = 0 ∧
    (runExport envC1 optsCompact).report =
      ["", "===============================",
        "MAC SYSTEM + USER INSTALLED APPLICATIONS (.app bundles)",
        "===============================", "", "-- /Applications ---", " ",
        "", "-- ~/Applications ---", "",
        "===============================", "HOMEBREW CASK APPLICATIONS (GUI)",
        "===============================", "",
        "===============================", "HOMEBREW FORMULAE (CLI tools)",
        "===============================", "",
        "===============================", "Report complete!",
        "Text report: /tmp/report.txt",
        "JSON metadata: skipped (compact mode)",
        "==============================="] := by decide

/-- C1 (amended): on every successful run the report decomposes into the
sections of `goodReport`, each `Stats` count equals the number of lines
written under its category's section, and the three command-derived
categories (app bundles, casks, formulae) contain only normalised
(trimmed, non-blank) lines; the two directory-listing categories write
raw entry names, which are counted as-is. -/
theorem stats_match_written_lines (env : Env) (opts : exportOptions)
    (h : (runExport env opts).err = none) :
    (runExport env opts).report = goodReport env opts ∧
    (runExport env opts).result.stats.appBundleCount =
      ((appBundlesOf env).length : Int) ∧
    (∀ l ∈ appBundlesOf env, trimSpace l = l ∧ l ≠ "") ∧
    (runExport env opts).result.stats.applicationsDirCount =
      ((systemAppsOf env).length : Int) ∧
    (runExport env opts).result.stats.userApplicationsCount =
      ((userAppsOf env).length : Int) ∧
    (runExport env opts).result.stats.brewCaskCount =
      ((casksOf env).length : Int) ∧
    (∀ l ∈ casksOf env, trimSpace l = l ∧ l ≠ "") ∧
    (runExport env opts).result.stats.brewFormulaCount =
      ((formulaeOf env).length : Int) ∧
    (∀ l ∈ formulaeOf env, trimSpace l = l ∧ l ≠ "") := by
  have hok := envOk_of_err_none env opts h
  rw [runExport_envOk env opts hok]
  refine ⟨rfl, rfl, ?_, rfl, rfl, rfl, ?_, rfl, ?_⟩ <;>
    exact fun l hl =>
      normalizeOutput_normalized _ l ((sortStrings_perm _).mem_iff.mp hl)

/-- Witness for the amended C1 on a concrete successful run, including
the spec's cask scenario: `BrewCaskCount = 2` with two sorted, trimmed
lines. -/
theorem stats_match_written_lines_witness :
    (runExport envC1w optsFull).err = none ∧
    casksOf envC1w = ["curl 8.0", "wget 1.21"] ∧
    ((runExport envC1w optsFull).report = goodReport envC1w optsFull ∧
      (runExport envC1w optsFull).result.stats.appBundleCount =
        ((appBundlesOf envC1w).length : Int) ∧
      (∀ l ∈ appBundlesOf envC1w, trimSpace l = l ∧ l ≠ "") ∧
      (runExport envC1w optsFull).result.stats.applicationsDirCount =
        ((systemAppsOf envC1w).length : Int) ∧
      (runExport envC1w optsFull).result.stats.userApplicationsCount =
        ((userAppsOf envC1w).length : Int) ∧
      (runExport envC1w optsFull).result.stats.brewCaskCount =
        ((casksOf envC1w).length : Int) ∧
      (∀ l ∈ casksOf envC1w, trimSpace l = l ∧ l ≠ "") ∧
      (runExport envC1w optsFull).result.stats.brewFormulaCount =
        ((formulaeOf envC1w).length : Int) ∧
      (∀ l ∈ formulaeOf envC1w, trimSpace l = l ∧ l ≠ "")) :=
  ⟨by decide, by decide, stats_match_written_lines envC1w optsFull (by decide)⟩

/-- C3 counterexample: the environment-dump section is streamed
verbatim, not sorted: the successful run's report lists `b` before `a`
under `BREW ENV & METADATA`, so not every category's lines appear
sorted. -/
theorem c3_counterexample :
    (runExport envC3 optsFull).err = none ∧
    streamLines envC3.brewConfig.out = ["b", "a"] ∧
    strLe "b" "a" = false ∧
    (runExport envC3 optsFull).report =
      ["", "===============================",
        "MAC SYSTEM + USER INSTALLED APPLICATIONS (.app bundles)",
        "===============================", "", "-- /Applications ---",
        "", "-- ~/Applications ---", "",
        "===============================", "HOMEBREW CASK APPLICATIONS (GUI)",
        "===============================", "", "-- Installed paths --", "",
        "===============================", "HOMEBREW FORMULAE (CLI tools)",
        "===============================", "",
        "===============================", "BREW ENV & METADATA",
        "===============================", "b", "a", "",
        "===============================", "FULL BREW PACKAGE METADATA (JSON)",
        "===============================", "Saved JSON -> /tmp/brew.json", "",
        "===============================", "Report complete!",
        "Text report: /tmp/report.txt", "JSON metadata: /tmp/brew.json",
        "==============================="] := by decide

/-- C3 (amended): on every successful run the report decomposes into the
sections of `goodReport`, in which each of the six inventory categories
(app bundles, `/Applications`, `~/Applications`, casks, Caskroom
directories, formulae) appears sorted ascending in the byte-wise
lexicographic order `strLeRel`; the diagnostic command output is
streamed verbatim. -/
theorem inventory_sections_sorted (env : Env) (opts : exportOptions)
    (h : (runExport env opts).err = none) :
    (runExport env opts).report = goodReport env opts ∧
    List.Sorted strLeRel (appBundlesOf env) ∧
    List.Sorted strLeRel (systemAppsOf env) ∧
    List.Sorted strLeRel (userAppsOf env) ∧
    List.Sorted strLeRel (casksOf env) ∧
    List.Sorted strLeRel (caskroomDirsOf env) ∧
    List.Sorted strLeRel (formulaeOf env) := by
  have hok := envOk_of_err_none env opts h
  rw [runExport_envOk env opts hok]
  refine ⟨rfl, sortStrings_sorted _, sortStrings_sorted _, ?_,
    sortStrings_sorted _, caskroomDirsOf_sorted env, sortStrings_sorted _⟩
  unfold userAppsOf
  by_cases hu : env.userApplicationsDir.ok
  · simp only [hu, if_true]
    exact sortStrings_sorted _
  · simp only [hu, Bool.false_eq_true, if_false]
    exact List.sorted_nil

/-- Witness for the amended C3 at the spec scenario: the app-bundle
section lists `Bar.app` before `Foo.app`. -/
theorem inventory_sections_sorted_witness :
    (runExport envC3w optsFull).err = none ∧
    appBundlesOf envC3w = ["/Applications/Bar.app", "/Applications/Foo.app"] ∧
    ((runExport envC3w optsFull).report = goodReport envC3w optsFull ∧
      List.Sorted strLeRel (appBundlesOf envC3w) ∧
      List.Sorted strLeRel (systemAppsOf envC3w) ∧
      List.Sorted strLeRel (userAppsOf envC3w) ∧
      List.Sorted strLeRel (casksOf envC3w) ∧
      List.Sorted strLeRel (caskroomDirsOf envC3w) ∧
      List.Sorted strLeRel (formulaeOf envC3w)) :=
  ⟨by decide, by decide, inventory_sections_sorted envC3w optsFull (by decide)⟩
